import Mathlib

/-!
# Verification of the `fakegopath` workspace utility

A shallow embedding of `fakegopath.go`: a utility that provisions a temporary
Go source tree (`dir/src`, `dir/pkg`, `dir/bin`), optionally splices `dir`
into the process-wide `GOPATH` (both the in-process cache
`build.Default.GOPATH` and the environment variable), ingests files, and
tears everything down on `Reset`.

Modelling conventions:
* Filesystem paths are lists of components (`FsPath`); `filepath.Join` is
  list append and `filepath.Dir` is `dropLast`.  Path cleaning (`..`, `.`,
  repeated separators) is not exercised by the code under verification.
* The filesystem is a record of existing directories (with their mode),
  regular files (mode and byte content), plus three sets modelling
  environmental failures: `badPaths` (paths where `os.Mkdir` fails),
  `unreadable` (paths where `os.Open` fails) and `unwritable` (paths where
  `os.OpenFile` fails).
* Bytes are `Nat`s; `GOPATH` values are `String`s, with a path rendered into
  a `GOPATH` entry by joining its components with `/`.
* `io.Reader` arguments are the byte sequences they deliver; read errors
  from an already-open handle are not modelled (in the Go code they can only
  arise from `io.Copy`, which no claim exercises).  `os.Open` of a directory
  is folded into an open failure (in Go the open succeeds and the subsequent
  read fails; no claim distinguishes the two).
-/

set_option autoImplicit false

namespace Fakegopath

/-- A filesystem path, as its list of components.  The empty list is the
root / the empty path string. -/
abbrev FsPath := List String

/-- Render a path as the string spliced into `GOPATH`
(`dir + ":" + build.Default.GOPATH` in `NewTemporary`). -/
def pathToString (p : FsPath) : String := String.intercalate "/" p

/-- The filesystem state.  `dirs` and `files` are association lists keyed by
path (most recent entry first); the remaining fields model environmental
failures of the underlying syscalls. -/
structure FS where
  dirs : List (FsPath × Nat)
  files : List (FsPath × Nat × List Nat)
  badPaths : List FsPath
  unreadable : List FsPath
  unwritable : List FsPath
  deriving DecidableEq

/-- A directory exists at `p`. -/
def FS.hasDir (fs : FS) (p : FsPath) : Bool := fs.dirs.any (fun d => d.1 == p)

/-- A regular file exists at `p`. -/
def FS.hasFile (fs : FS) (p : FsPath) : Bool := fs.files.any (fun f => f.1 == p)

/-- The mode of the directory at `p`, if one exists. -/
def FS.dirMode? (fs : FS) (p : FsPath) : Option Nat :=
  (fs.dirs.find? (fun d => d.1 == p)).map (fun d => d.2)

/-- The content of the regular file at `p`, if one exists. -/
def FS.readFile? (fs : FS) (p : FsPath) : Option (List Nat) :=
  (fs.files.find? (fun f => f.1 == p)).map (fun f => f.2.2)

/-- Write `content` to the file at `p` (association-list update by
shadowing: lookups take the newest entry): an existing file keeps its mode
and gets the new content; otherwise a file is created with mode `0o600`
(`os.OpenFile(fullPath, os.O_CREATE|os.O_RDWR, 0600)`). -/
def FS.setFile (fs : FS) (p : FsPath) (content : List Nat) : FS :=
  match fs.files.find? (fun f => f.1 == p) with
  | some f => { fs with files := (p, f.2.1, content) :: fs.files }
  | none => { fs with files := (p, 0o600, content) :: fs.files }

/-- `os.Open(src)` for reading: fails on the empty path (`os.Open("")` is
`ENOENT`), on an unreadable path, or when no regular file is present. -/
def FS.openRead? (fs : FS) (p : FsPath) : Option (List Nat) :=
  if p.isEmpty || fs.unreadable.contains p then none else fs.readFile? p

/-- `os.RemoveAll(p)`: removes `p` and everything below it. -/
def FS.removeAll (fs : FS) (p : FsPath) : FS :=
  { fs with dirs := fs.dirs.filter (fun d => !p.isPrefixOf d.1),
            files := fs.files.filter (fun f => !p.isPrefixOf f.1) }

/-- `os.MkdirAll(path, perm)`, with the path passed in reverse component
order (`rp.reverse` is the path) so the parent recursion is structural.
Mirrors Go's `MkdirAll`: succeed at once if the path is already a directory,
fail if a file is in the way, otherwise ensure the parent then `Mkdir`
(which fails on a `badPaths` entry). -/
def FS.mkdirAllRev (fs : FS) (rp : List String) (perm : Nat) : FS × Bool :=
  match rp with
  | [] => (fs, true)
  | _ :: parentRev =>
    let p := rp.reverse
    if fs.hasDir p then (fs, true)
    else if fs.hasFile p then (fs, false)
    else
      let r := fs.mkdirAllRev parentRev perm
      if r.2 then
        if r.1.badPaths.contains p then (r.1, false)
        else ({ r.1 with dirs := (p, perm) :: r.1.dirs }, true)
      else r

/-- `os.MkdirAll(p, perm)`: the final state and whether it succeeded. -/
def FS.mkdirAll (fs : FS) (p : FsPath) (perm : Nat) : FS × Bool :=
  fs.mkdirAllRev p.reverse perm

/-- The process-wide state the program manipulates: the filesystem, the
in-process cache `build.Default.GOPATH` and the `GOPATH` environment
variable (`os.Getenv("GOPATH")`, `""` when unset). -/
structure Sys where
  fs : FS
  buildDefaultGOPATH : String
  envGOPATH : String
  deriving DecidableEq

/-- The errors `fakegopath.go` produces (each a `fmt.Errorf` naming the
path involved). -/
inductive GoError where
  | dirCreationFailed (path : FsPath)
  | configMismatch (env orig : String)
  | sourceOpenFailed (path : FsPath)
  | fileOpenFailed (path : FsPath)
  deriving DecidableEq

/-- The `Temporary` struct. -/
structure Temporary where
  Path : FsPath
  Orig : String
  Pkg : FsPath
  Src : FsPath
  Bin : FsPath
  update : Bool
  deleteDir : Bool
  deriving DecidableEq

/-- The `SourceFile` struct.  Go's `Content []byte` distinguishes `nil`
(copy from `Src`) from a non-nil, possibly empty, slice (write literally);
hence an `Option`. -/
structure SourceFile where
  Src : FsPath
  Dest : FsPath
  Content : Option (List Nat)
  deriving DecidableEq

/-- The `for _, d := range []string{t.Src, t.Pkg, t.Bin}` loop of
`NewTemporary`: `MkdirAll` each in turn, stopping at (and reporting) the
first directory that fails. -/
def mkdirs (fs : FS) : List FsPath → FS × Option FsPath
  | [] => (fs, none)
  | d :: ds =>
    let r := fs.mkdirAll d 0o700
    if r.2 then mkdirs r.1 ds else (r.1, some d)

/-- `NewTemporary(dir, updateGoPath)`.  Returns the new process state
together with the constructed `Temporary` or the error. -/
def NewTemporary (sys : Sys) (dir : FsPath) (updateGoPath : Bool) :
    Sys × Except GoError Temporary :=
  let t : Temporary :=
    { Path := dir, Orig := "", Pkg := dir ++ ["pkg"], Src := dir ++ ["src"],
      Bin := dir ++ ["bin"], update := updateGoPath, deleteDir := false }
  match mkdirs sys.fs [t.Src, t.Pkg, t.Bin] with
  | (fs1, some d) => ({ sys with fs := fs1 }, .error (.dirCreationFailed d))
  | (fs1, none) =>
    let sys1 := { sys with fs := fs1 }
    if t.update then
      let orig := sys1.buildDefaultGOPATH
      if sys1.envGOPATH = orig then
        let newGP := pathToString dir ++ ":" ++ orig
        ({ sys1 with buildDefaultGOPATH := newGP, envGOPATH := newGP },
         .ok { t with Orig := orig })
      else
        (sys1, .error (.configMismatch sys1.envGOPATH orig))
    else (sys1, .ok t)

/-- `Temporary.WriteFile(file, contents)`: resolve against the src root,
`MkdirAll` the containing directory, open the destination with
`O_CREATE|O_RDWR` (no truncation) and copy `contents` from offset 0, so old
bytes beyond `contents.length` survive. -/
def Temporary.WriteFile (t : Temporary) (fs : FS) (file : FsPath)
    (contents : List Nat) : FS × Except GoError Unit :=
  let fullPath := t.Src ++ file
  let fileDir := fullPath.dropLast
  let r := fs.mkdirAll fileDir 0o700
  if !r.2 then (r.1, .error (.dirCreationFailed fileDir))
  else if r.1.hasDir fullPath || r.1.unwritable.contains fullPath then
    (r.1, .error (.fileOpenFailed fullPath))
  else
    let old := (r.1.readFile? fullPath).getD []
    (r.1.setFile fullPath (contents ++ old.drop contents.length), .ok ())

/-- `Temporary.CopyFile(dest, src)`: open `src` for reading, then
`WriteFile` its contents. -/
def Temporary.CopyFile (t : Temporary) (fs : FS) (dest src : FsPath) :
    FS × Except GoError Unit :=
  match fs.openRead? src with
  | none => (fs, .error (.sourceOpenFailed src))
  | some content => t.WriteFile fs dest content

/-- The body of `Temporary.Copy`'s loop for one `SourceFile`: `WriteFile`
when `Content != nil`, else `CopyFile`. -/
def Temporary.step (t : Temporary) (fs : FS) (f : SourceFile) :
    FS × Except GoError Unit :=
  match f.Content with
  | some c => t.WriteFile fs f.Dest c
  | none => t.CopyFile fs f.Dest f.Src

/-- `Temporary.Copy(files)`: process entries in order, stopping at the
first failure. -/
def Temporary.Copy (t : Temporary) (fs : FS) :
    List SourceFile → FS × Except GoError Unit
  | [] => (fs, .ok ())
  | f :: rest =>
    let r := t.step fs f
    match r.2 with
    | .error e => (r.1, .error e)
    | .ok _ => t.Copy r.1 rest

/-- `Temporary.KeepTempDir(keep)`: stores the negation. -/
def Temporary.KeepTempDir (t : Temporary) (keep : Bool) : Temporary :=
  { t with deleteDir := !keep }

/-- `Temporary.Reset()`: restore both `GOPATH` representations to the
construction-time snapshot when this instance mutated them, and remove the
tree when marked for deletion (removal errors are only logged, so removal
is modelled as always effective). -/
def Temporary.Reset (t : Temporary) (sys : Sys) : Sys :=
  let sys1 :=
    if t.update then
      { sys with buildDefaultGOPATH := t.Orig, envGOPATH := t.Orig }
    else sys
  if t.deleteDir then { sys1 with fs := sys1.fs.removeAll t.Path } else sys1

/-- `NewTemporaryWithFiles(prefix, files)`.  `ioutil.TempDir` is modelled by
the caller-supplied fresh directory `dir` (created with mode `0o700`); the
claims about this function concern failures after that allocation
succeeds. -/
def NewTemporaryWithFiles (sys : Sys) (dir : FsPath) (files : List SourceFile) :
    Sys × Except GoError Temporary :=
  let sys0 := { sys with fs := { sys.fs with dirs := (dir, 0o700) :: sys.fs.dirs } }
  match NewTemporary sys0 dir true with
  | (sys1, .error e) => ({ sys1 with fs := sys1.fs.removeAll dir }, .error e)
  | (sys1, .ok t0) =>
    let t := { t0 with deleteDir := true }
    let r := t.Copy sys1.fs files
    match r.2 with
    | .error e => (t.Reset { sys1 with fs := r.1 }, .error e)
    | .ok _ => ({ sys1 with fs := r.1 }, .ok t)

deriving instance DecidableEq for Except

/-- An empty filesystem with no environmental failures, for concrete runs. -/
def FS.empty : FS := { dirs := [], files := [], badPaths := [], unreadable := [], unwritable := [] }

/-- `true` exactly on a `ConfigurationMismatch`-class result. -/
def isConfigMismatchErr {α : Type} : Except GoError α → Bool
  | .error (.configMismatch _ _) => true
  | _ => false

/-- The filesystem states reachable from a real filesystem: every nonempty
prefix of an existing directory is itself a directory. -/
def FS.prefixClosed (fs : FS) : Bool :=
  fs.dirs.all (fun d => (List.range d.1.length).all (fun n => fs.hasDir (d.1.take (n + 1))))

/-- A clean starting state: empty filesystem, cache and environment agree. -/
def sysG : Sys := { fs := FS.empty, buildDefaultGOPATH := "g", envGOPATH := "g" }

/-- A state whose cache (`"g"`) and environment (`"h"`) disagree, and where
`MkdirAll` of `["d", "src"]` fails for an environmental reason. -/
def sysBad : Sys :=
  { fs := { FS.empty with badPaths := [["d", "src"]] },
    buildDefaultGOPATH := "g", envGOPATH := "h" }

/-- A state where `["d", "src"]` already exists as a directory with
non-owner-only mode `0o755`. -/
def sysPre : Sys :=
  { fs := { FS.empty with dirs := [(["d", "src"], 0o755), (["d"], 0o700)] },
    buildDefaultGOPATH := "g", envGOPATH := "g" }

/-- A state where `Mkdir` of `["d", "pkg"]` fails for an environmental
reason. -/
def sysBadPkg : Sys :=
  { fs := { FS.empty with badPaths := [["d", "pkg"]] },
    buildDefaultGOPATH := "g", envGOPATH := "g" }

/-- A workspace rooted at `["w"]` that does not manage `GOPATH`. -/
def tW : Temporary :=
  { Path := ["w"], Orig := "", Pkg := ["w", "pkg"], Src := ["w", "src"],
    Bin := ["w", "bin"], update := false, deleteDir := false }

/-- A `GOPATH`-managing workspace rooted at `["d"]`, marked for deletion. -/
def tD : Temporary :=
  { Path := ["d"], Orig := "g", Pkg := ["d", "pkg"], Src := ["d", "src"],
    Bin := ["d", "bin"], update := true, deleteDir := true }

/-- `tD` without the delete-on-reset flag. -/
def tK : Temporary := { tD with deleteDir := false }

/-- A filesystem holding `["w", "src", "f"]` with five bytes of content. -/
def fs8 : FS :=
  { FS.empty with dirs := [(["w", "src"], 0o700), (["w"], 0o700)],
                  files := [(["w", "src", "f"], 0o600, [7, 8, 9, 10, 11])] }

/-- Three ingestion entries: literal write, copy from a nonexistent source,
literal write. -/
def filesW : List SourceFile :=
  [{ Src := [], Dest := ["f1"], Content := some [1] },
   { Src := ["nosuch"], Dest := ["f2"], Content := none },
   { Src := [], Dest := ["f3"], Content := some [3] }]

/-- One ingestion entry whose source does not exist. -/
def fMiss : SourceFile := { Src := ["nosuch"], Dest := ["f"], Content := none }

/-- The number of entries `Copy` processes successfully before the first
failing one (the length of the list when every entry succeeds). -/
def Temporary.copyFailIdx (t : Temporary) (fs : FS) : List SourceFile → Nat
  | [] => 0
  | f :: rest =>
    match (t.step fs f).2 with
    | .error _ => 0
    | .ok _ => t.copyFailIdx (t.step fs f).1 rest + 1

/-- Characterization of a successful `NewTemporary(dir, true)`: cache and
environment agreed beforehand, the returned struct records the snapshot,
and both `GOPATH` representations got `dir` prepended. -/
theorem newTemporary_ok_true (sys sys1 : Sys) (dir : FsPath) (t : Temporary)
    (h : NewTemporary sys dir true = (sys1, .ok t)) :
    sys.envGOPATH = sys.buildDefaultGOPATH ∧
    t = { Path := dir, Orig := sys.buildDefaultGOPATH, Pkg := dir ++ ["pkg"],
          Src := dir ++ ["src"], Bin := dir ++ ["bin"], update := true,
          deleteDir := false } ∧
    sys1.buildDefaultGOPATH = pathToString dir ++ ":" ++ sys.buildDefaultGOPATH ∧
    sys1.envGOPATH = pathToString dir ++ ":" ++ sys.buildDefaultGOPATH := by
  rcases hm : mkdirs sys.fs [dir ++ ["src"], dir ++ ["pkg"], dir ++ ["bin"]] with ⟨fs1, od⟩
  cases od with
  | some d => simp [NewTemporary, hm] at h
  | none =>
    by_cases henv : sys.envGOPATH = sys.buildDefaultGOPATH
    · simp [NewTemporary, hm, henv] at h
      obtain ⟨h1, h2⟩ := h
      subst h2
      simp [← h1, henv]
    · simp [NewTemporary, hm, henv] at h

/-- **C1.** After a successful `NewTemporary(dir, true)`, the in-process
cache and the environment variable both equal `dir`, then the separator,
then the original value (prepended, not appended), and `Orig` records the
pre-mutation value. -/
theorem c1_create_prepends_searchpath (sys sys1 : Sys) (dir : FsPath) (t : Temporary)
    (h : NewTemporary sys dir true = (sys1, .ok t)) :
    sys1.buildDefaultGOPATH = pathToString dir ++ ":" ++ sys.buildDefaultGOPATH ∧
    sys1.envGOPATH = pathToString dir ++ ":" ++ sys.buildDefaultGOPATH ∧
    t.Orig = sys.buildDefaultGOPATH := by
  obtain ⟨-, ht, h1, h2⟩ := newTemporary_ok_true sys sys1 dir t h
  subst ht
  exact ⟨h1, h2, rfl⟩

/-- Witness for C1 at `dir = ["d"]`, `GOPATH = "g"`. -/
theorem c1_witness :
    (NewTemporary sysG ["d"] true).1.buildDefaultGOPATH = "d:g" ∧
    (NewTemporary sysG ["d"] true).1.envGOPATH = "d:g" := by
  have h := c1_create_prepends_searchpath sysG (NewTemporary sysG ["d"] true).1 ["d"]
    { Path := ["d"], Orig := "g", Pkg := ["d", "pkg"], Src := ["d", "src"],
      Bin := ["d", "bin"], update := true, deleteDir := false } (by decide)
  exact ⟨h.1, h.2.1⟩

/-- **C2, counterexample.** In a disagreeing state the claim predicts a
`ConfigurationMismatch` error for every call, but when creating one of the
three subdirectories fails the directory-creation error is returned
instead: the three `MkdirAll` calls precede the mismatch check. -/
theorem c2_counterexample :
    sysBad.envGOPATH ≠ sysBad.buildDefaultGOPATH ∧
    (NewTemporary sysBad ["d"] true).2 = .error (.dirCreationFailed ["d", "src"]) ∧
    isConfigMismatchErr (NewTemporary sysBad ["d"] true).2 = false := by decide

/-- **C2, amended.** If the cache and the environment disagree, then
(a) provided the three subdirectory creations succeed, `NewTemporary`
returns a `ConfigurationMismatch` error carrying the two values, and
(b) in every case neither the cache nor the environment variable is
mutated. -/
theorem c2_mismatch_no_mutation (sys : Sys) (dir : FsPath)
    (h : sys.envGOPATH ≠ sys.buildDefaultGOPATH) :
    ((mkdirs sys.fs [dir ++ ["src"], dir ++ ["pkg"], dir ++ ["bin"]]).2 = none →
      (NewTemporary sys dir true).2 =
        .error (.configMismatch sys.envGOPATH sys.buildDefaultGOPATH)) ∧
    (NewTemporary sys dir true).1.buildDefaultGOPATH = sys.buildDefaultGOPATH ∧
    (NewTemporary sys dir true).1.envGOPATH = sys.envGOPATH := by
  rcases hm : mkdirs sys.fs [dir ++ ["src"], dir ++ ["pkg"], dir ++ ["bin"]] with ⟨fs1, od⟩
  cases od with
  | some d => simp [NewTemporary, hm]
  | none => simp [NewTemporary, hm, h]

/-- Witness for C2 (amended) in a disagreeing state with no filesystem
failures. -/
theorem c2_witness :
    (NewTemporary { fs := FS.empty, buildDefaultGOPATH := "g", envGOPATH := "h" }
        ["d"] true).2 = .error (.configMismatch "h" "g") ∧
    (NewTemporary { fs := FS.empty, buildDefaultGOPATH := "g", envGOPATH := "h" }
        ["d"] true).1.buildDefaultGOPATH = "g" ∧
    (NewTemporary { fs := FS.empty, buildDefaultGOPATH := "g", envGOPATH := "h" }
        ["d"] true).1.envGOPATH = "h" := by
  have h := c2_mismatch_no_mutation
    { fs := FS.empty, buildDefaultGOPATH := "g", envGOPATH := "h" } ["d"] (by decide)
  exact ⟨h.1 (by decide), h.2.1, h.2.2⟩

/-- **C3.** For every Workspace built by a successful `NewTemporary(dir,
true)` and every intervening state `sys2` (arbitrary external mutation of
cache, environment and filesystem), `Reset` sets both the cache and the
environment back to the construction-time snapshot, which equals both
pre-mutation values (create/reset round trip, last-writer-wins). -/
theorem c3_reset_restores_snapshot (sys sys1 sys2 : Sys) (dir : FsPath) (t : Temporary)
    (h : NewTemporary sys dir true = (sys1, .ok t)) :
    (t.Reset sys2).buildDefaultGOPATH = sys.buildDefaultGOPATH ∧
    (t.Reset sys2).envGOPATH = sys.buildDefaultGOPATH ∧
    sys.envGOPATH = sys.buildDefaultGOPATH := by
  obtain ⟨henv, ht, -, -⟩ := newTemporary_ok_true sys sys1 dir t h
  subst ht
  exact ⟨by simp [Temporary.Reset], by simp [Temporary.Reset], henv⟩

/-- Witness for C3: create from `sysG`, externally clobber everything, then
`Reset` restores `"g"` to both representations. -/
theorem c3_witness :
    (Temporary.Reset
        { Path := ["d"], Orig := "g", Pkg := ["d", "pkg"], Src := ["d", "src"],
          Bin := ["d", "bin"], update := true, deleteDir := false }
        { fs := FS.empty, buildDefaultGOPATH := "x", envGOPATH := "y" }).buildDefaultGOPATH = "g" ∧
    (Temporary.Reset
        { Path := ["d"], Orig := "g", Pkg := ["d", "pkg"], Src := ["d", "src"],
          Bin := ["d", "bin"], update := true, deleteDir := false }
        { fs := FS.empty, buildDefaultGOPATH := "x", envGOPATH := "y" }).envGOPATH = "g" := by
  have h := c3_reset_restores_snapshot sysG (NewTemporary sysG ["d"] true).1
    { fs := FS.empty, buildDefaultGOPATH := "x", envGOPATH := "y" } ["d"]
    { Path := ["d"], Orig := "g", Pkg := ["d", "pkg"], Src := ["d", "src"],
      Bin := ["d", "bin"], update := true, deleteDir := false } (by decide)
  exact ⟨h.1, h.2.1⟩

/-- Unfolding of `mkdirAllRev` on a nonempty (reversed) path, with the
path in `reverse`-normal form. -/
theorem mkdirAllRev_cons (fs : FS) (c : String) (pr : List String) (perm : Nat) :
    fs.mkdirAllRev (c :: pr) perm =
      if fs.hasDir (pr.reverse ++ [c]) = true then (fs, true)
      else if fs.hasFile (pr.reverse ++ [c]) = true then (fs, false)
      else if (fs.mkdirAllRev pr perm).2 = true then
        if (fs.mkdirAllRev pr perm).1.badPaths.contains (pr.reverse ++ [c]) = true then
          ((fs.mkdirAllRev pr perm).1, false)
        else ({ (fs.mkdirAllRev pr perm).1 with
                dirs := (pr.reverse ++ [c], perm) :: (fs.mkdirAllRev pr perm).1.dirs }, true)
      else fs.mkdirAllRev pr perm := by
  conv_lhs => rw [FS.mkdirAllRev]
  simp only [List.reverse_cons]

/-- Membership in the directory table after consing one entry. -/
theorem hasDir_consDirs (fs : FS) (e : FsPath × Nat) (q : FsPath) :
    ({ fs with dirs := e :: fs.dirs } : FS).hasDir q = ((e.1 == q) || fs.hasDir q) := by
  simp [FS.hasDir]

/-- Directory-mode lookup after consing one entry. -/
theorem dirMode_consDirs (fs : FS) (e : FsPath × Nat) (q : FsPath) :
    ({ fs with dirs := e :: fs.dirs } : FS).dirMode? q =
      if e.1 == q then some e.2 else fs.dirMode? q := by
  rcases hbe : e.1 == q with _ | _
  · have hfind : List.find? (fun d => d.1 == q) (e :: fs.dirs) =
        List.find? (fun d => d.1 == q) fs.dirs :=
      List.find?_cons_of_neg _ (by simp [hbe])
    simp only [FS.dirMode?, hfind]
    simp [hbe]
  · have hfind : List.find? (fun d => d.1 == q) (e :: fs.dirs) = some e :=
      List.find?_cons_of_pos _ hbe
    simp only [FS.dirMode?, hfind]
    simp [hbe]

/-- The basic frame and monotonicity facts about `MkdirAll`: it touches only
the directory table, never removes or re-modes an existing directory, gives
every directory it adds the requested mode, and on success the requested
directory exists afterwards. -/
theorem mkdirAllRev_props (rp : List String) (fs : FS) (perm : Nat) :
    (fs.mkdirAllRev rp perm).1.files = fs.files ∧
    (fs.mkdirAllRev rp perm).1.badPaths = fs.badPaths ∧
    (fs.mkdirAllRev rp perm).1.unreadable = fs.unreadable ∧
    (fs.mkdirAllRev rp perm).1.unwritable = fs.unwritable ∧
    (∀ q, fs.hasDir q = true →
      (fs.mkdirAllRev rp perm).1.hasDir q = true ∧
      (fs.mkdirAllRev rp perm).1.dirMode? q = fs.dirMode? q) ∧
    (∀ q, fs.hasDir q = false → (fs.mkdirAllRev rp perm).1.hasDir q = true →
      (fs.mkdirAllRev rp perm).1.dirMode? q = some perm) ∧
    ((fs.mkdirAllRev rp perm).2 = true → rp ≠ [] →
      (fs.mkdirAllRev rp perm).1.hasDir rp.reverse = true) := by
  induction rp generalizing fs with
  | nil =>
    refine ⟨rfl, rfl, rfl, rfl, fun q hq => ⟨?_, rfl⟩, fun q h0 h1 => ?_, fun _ h => absurd rfl h⟩
    · simpa [FS.mkdirAllRev] using hq
    · simp only [FS.mkdirAllRev] at h1
      rw [h1] at h0
      cases h0
  | cons c pr ih =>
    rw [mkdirAllRev_cons, List.reverse_cons]
    by_cases hd : fs.hasDir (pr.reverse ++ [c]) = true
    · rw [if_pos hd]
      refine ⟨rfl, rfl, rfl, rfl, fun q hq => ⟨hq, rfl⟩, fun q h0 h1 => ?_, fun _ _ => hd⟩
      rw [h1] at h0
      cases h0
    · rw [if_neg hd]
      by_cases hf : fs.hasFile (pr.reverse ++ [c]) = true
      · rw [if_pos hf]
        refine ⟨rfl, rfl, rfl, rfl, fun q hq => ⟨hq, rfl⟩, fun q h0 h1 => ?_,
          fun h _ => Bool.noConfusion h⟩
        rw [h1] at h0
        cases h0
      · rw [if_neg hf]
        obtain ⟨ihfi, ihbp, ihur, ihuw, ihmono, ihnew, ihtgt⟩ := ih fs
        rcases hr : fs.mkdirAllRev pr perm with ⟨fs1, ok⟩
        rw [hr] at ihfi ihbp ihur ihuw ihmono ihnew ihtgt
        cases ok with
        | false =>
          rw [if_neg (by simp)]
          exact ⟨ihfi, ihbp, ihur, ihuw, ihmono, ihnew, fun h _ => Bool.noConfusion h⟩
        | true =>
          rw [if_pos rfl]
          by_cases hb : fs1.badPaths.contains (pr.reverse ++ [c]) = true
          · rw [if_pos hb]
            exact ⟨ihfi, ihbp, ihur, ihuw, ihmono, ihnew, fun h _ => Bool.noConfusion h⟩
          · rw [if_neg hb]
            refine ⟨ihfi, ihbp, ihur, ihuw, fun q hq => ?_, fun q h0 h1 => ?_, fun _ _ => ?_⟩
            · obtain ⟨hm1, hm2⟩ := ihmono q hq
              have hne : ((pr.reverse ++ [c]) == q) = false := by
                rcases hbe : (pr.reverse ++ [c]) == q with _ | _
                · rfl
                · rw [beq_iff_eq] at hbe
                  rw [hbe] at hd
                  exact absurd hq hd
              constructor
              · rw [hasDir_consDirs, hm1, Bool.or_true]
              · rw [dirMode_consDirs]
                simp only [hne, if_false, Bool.false_eq_true]
                exact hm2
            · rw [hasDir_consDirs] at h1
              rw [dirMode_consDirs]
              rcases hbe : (pr.reverse ++ [c]) == q with _ | _
              · simp only [hbe, if_false, Bool.false_eq_true]
                rw [hbe, Bool.false_or] at h1
                exact ihnew q h0 h1
              · simp [hbe]
            · rw [hasDir_consDirs]
              simp

/-- `prefixClosed` as a quantified statement. -/
theorem prefixClosed_iff (fs : FS) :
    fs.prefixClosed = true ↔
      ∀ q r : FsPath, fs.hasDir q = true → r ≠ [] → r.isPrefixOf q = true →
        fs.hasDir r = true := by
  constructor
  · intro h q r hq hr hpre
    rw [FS.hasDir, List.any_eq_true] at hq
    obtain ⟨d, hd, hdq⟩ := hq
    rw [beq_iff_eq] at hdq
    rw [FS.prefixClosed, List.all_eq_true] at h
    have hall := h d hd
    rw [List.all_eq_true] at hall
    rw [List.isPrefixOf_iff_prefix] at hpre
    have htake : r = q.take r.length := List.prefix_iff_eq_take.mp hpre
    have hlen : r.length ≤ q.length := hpre.length_le
    have hpos : 0 < r.length := List.length_pos.mpr hr
    have hn : r.length - 1 ∈ List.range d.1.length := by
      rw [List.mem_range, hdq]
      omega
    have hres := hall _ hn
    rw [hdq] at hres
    rw [Nat.sub_add_cancel hpos] at hres
    rwa [← htake] at hres
  · intro h
    rw [FS.prefixClosed, List.all_eq_true]
    intro d hd
    rw [List.all_eq_true]
    intro n hn
    rw [List.mem_range] at hn
    have hq : fs.hasDir d.1 = true := by
      rw [FS.hasDir, List.any_eq_true]
      exact ⟨d, hd, by simp⟩
    refine h d.1 (d.1.take (n + 1)) hq ?_ ?_
    · intro hcon
      have hlen : (d.1.take (n + 1)).length = 0 := by rw [hcon]; rfl
      rw [List.length_take] at hlen
      omega
    · rw [List.isPrefixOf_iff_prefix]
      exact List.take_prefix _ _

/-- On a prefix-closed filesystem, a successful `MkdirAll` leaves every
nonempty prefix of the requested path existing as a directory, and
preserves prefix-closure. -/
theorem mkdirAllRev_closed_props (rp : List String) (fs : FS) (perm : Nat)
    (hpc : fs.prefixClosed = true) :
    ((fs.mkdirAllRev rp perm).2 = true →
      ∀ q : FsPath, q ≠ [] → q.isPrefixOf rp.reverse = true →
        (fs.mkdirAllRev rp perm).1.hasDir q = true) ∧
    (fs.mkdirAllRev rp perm).1.prefixClosed = true := by
  induction rp generalizing fs with
  | nil =>
    refine ⟨fun _ q hq hpre => ?_, by simpa [FS.mkdirAllRev] using hpc⟩
    rw [List.isPrefixOf_iff_prefix] at hpre
    simp only [List.reverse_nil, List.prefix_nil] at hpre
    exact absurd hpre hq
  | cons c pr ih =>
    rw [mkdirAllRev_cons, List.reverse_cons]
    by_cases hd : fs.hasDir (pr.reverse ++ [c]) = true
    · rw [if_pos hd]
      exact ⟨fun _ q hq hpre => (prefixClosed_iff fs).mp hpc _ q hd hq hpre, hpc⟩
    · rw [if_neg hd]
      by_cases hf : fs.hasFile (pr.reverse ++ [c]) = true
      · rw [if_pos hf]
        exact ⟨fun h => Bool.noConfusion h, hpc⟩
      · rw [if_neg hf]
        obtain ⟨ihens, ihpc⟩ := ih fs hpc
        obtain ⟨-, -, -, -, ihmono, -, ihtgt⟩ := mkdirAllRev_props pr fs perm
        rcases hr : fs.mkdirAllRev pr perm with ⟨fs1, ok⟩
        rw [hr] at ihens ihpc ihmono ihtgt
        cases ok with
        | false =>
          rw [if_neg (by simp)]
          exact ⟨fun h => Bool.noConfusion h, ihpc⟩
        | true =>
          rw [if_pos rfl]
          by_cases hb : fs1.badPaths.contains (pr.reverse ++ [c]) = true
          · rw [if_pos hb]
            exact ⟨fun h => Bool.noConfusion h, ihpc⟩
          · rw [if_neg hb]
            have hsub : ∀ q : FsPath, q ≠ [] → q.isPrefixOf pr.reverse = true →
                fs1.hasDir q = true := ihens rfl
            constructor
            · intro _ q hq hpre
              rw [List.isPrefixOf_iff_prefix, List.prefix_concat_iff] at hpre
              rw [hasDir_consDirs]
              rcases hpre with hpre | hpre
              · rw [hpre]
                simp
              · rw [hsub q hq (List.isPrefixOf_iff_prefix.mpr hpre), Bool.or_true]
            · rw [prefixClosed_iff]
              intro q' r hq' hrne hrpre
              rw [hasDir_consDirs] at hq' ⊢
              rcases hbe : (pr.reverse ++ [c]) == q' with _ | _
              · rw [hbe, Bool.false_or] at hq'
                rw [(prefixClosed_iff fs1).mp ihpc q' r hq' hrne hrpre, Bool.or_true]
              · rw [beq_iff_eq] at hbe
                rw [← hbe] at hrpre
                rw [List.isPrefixOf_iff_prefix, List.prefix_concat_iff] at hrpre
                rcases hrpre with hrpre | hrpre
                · rw [hrpre]
                  simp
                · rcases List.eq_nil_or_concat pr.reverse with hnil | _
                  · rw [hnil, List.prefix_nil] at hrpre
                    exact absurd hrpre hrne
                  · have hprne : pr ≠ [] := by
                      intro hcon
                      rw [hcon, List.reverse_nil, List.prefix_nil] at hrpre
                      exact absurd hrpre hrne
                    have htg := ihtgt rfl hprne
                    rw [(prefixClosed_iff fs1).mp ihpc pr.reverse r htg hrne
                      (List.isPrefixOf_iff_prefix.mpr hrpre), Bool.or_true]


/-- `mkdirAll` in terms of the reversed-path worker. -/
theorem mkdirAll_def (fs : FS) (p : FsPath) (perm : Nat) :
    fs.mkdirAll p perm = fs.mkdirAllRev p.reverse perm := rfl

/-- Unfolding of the directory-creation loop on a nonempty list. -/
theorem mkdirs_cons (fs : FS) (d : FsPath) (ds : List FsPath) :
    mkdirs fs (d :: ds) =
      if (fs.mkdirAll d 0o700).2 = true then mkdirs (fs.mkdirAll d 0o700).1 ds
      else ((fs.mkdirAll d 0o700).1, some d) := by
  rw [mkdirs]

/-- The loop never removes or re-modes an existing directory. -/
theorem mkdirs_mono (ds : List FsPath) (fs : FS) (q : FsPath) :
    fs.hasDir q = true →
      (mkdirs fs ds).1.hasDir q = true ∧ (mkdirs fs ds).1.dirMode? q = fs.dirMode? q := by
  induction ds generalizing fs with
  | nil => exact fun h => ⟨h, rfl⟩
  | cons d ds ih =>
    intro h
    rw [mkdirs_cons]
    obtain ⟨-, -, -, -, ihm, -, -⟩ := mkdirAllRev_props d.reverse fs 0o700
    obtain ⟨hm1, hm2⟩ := ihm q h
    rcases hr : fs.mkdirAll d 0o700 with ⟨fs1, ok⟩
    rw [mkdirAll_def] at hr
    rw [hr] at hm1 hm2
    cases ok with
    | false => exact ⟨hm1, hm2⟩
    | true =>
      rw [if_pos rfl]
      obtain ⟨g1, g2⟩ := ih fs1 hm1
      exact ⟨g1, g2.trans hm2⟩

/-- The failing path the loop reports is one of the requested ones. -/
theorem mkdirs_some_mem (ds : List FsPath) (fs : FS) (d : FsPath) :
    (mkdirs fs ds).2 = some d → d ∈ ds := by
  induction ds generalizing fs with
  | nil => intro h; simp [mkdirs] at h
  | cons d0 ds ih =>
    rw [mkdirs_cons]
    rcases hr : fs.mkdirAll d0 0o700 with ⟨fs1, ok⟩
    cases ok with
    | false =>
      rw [if_neg (by simp)]
      intro h
      have hde : d0 = d := by simpa using h
      rw [← hde]
      exact List.mem_cons_self d0 ds
    | true =>
      rw [if_pos rfl]
      intro h
      exact List.mem_cons_of_mem _ (ih fs1 h)

/-- The loop preserves prefix-closure. -/
theorem mkdirs_prefixClosed (ds : List FsPath) (fs : FS) :
    fs.prefixClosed = true → (mkdirs fs ds).1.prefixClosed = true := by
  induction ds generalizing fs with
  | nil => exact fun h => h
  | cons d ds ih =>
    intro hpc
    rw [mkdirs_cons]
    obtain ⟨-, hcl⟩ := mkdirAllRev_closed_props d.reverse fs 0o700 hpc
    rcases hr : fs.mkdirAll d 0o700 with ⟨fs1, ok⟩
    rw [mkdirAll_def] at hr
    rw [hr] at hcl
    cases ok with
    | false => exact hcl
    | true =>
      rw [if_pos rfl]
      exact ih fs1 hcl

/-- When the whole loop succeeds on a prefix-closed filesystem, every
requested (nonempty) directory exists afterwards, and each one that did not
already exist was created with mode `0o700`. -/
theorem mkdirs_ensures (ds : List FsPath) (fs : FS) :
    fs.prefixClosed = true → (mkdirs fs ds).2 = none →
      ∀ d ∈ ds, d ≠ [] →
        (mkdirs fs ds).1.hasDir d = true ∧
        (fs.hasDir d = false → (mkdirs fs ds).1.dirMode? d = some 0o700) := by
  induction ds generalizing fs with
  | nil => intro _ _ d hd; cases hd
  | cons d0 ds ih =>
    intro hpc hnone d hd hdne
    rw [mkdirs_cons] at hnone ⊢
    obtain ⟨-, -, -, -, -, ihnew, ihtgt⟩ := mkdirAllRev_props d0.reverse fs 0o700
    obtain ⟨-, hcl⟩ := mkdirAllRev_closed_props d0.reverse fs 0o700 hpc
    rcases hr : fs.mkdirAll d0 0o700 with ⟨fs1, ok⟩
    rw [hr] at hnone
    rw [mkdirAll_def] at hr
    rw [hr] at ihnew ihtgt hcl
    cases ok with
    | false =>
      rw [if_neg (by simp)] at hnone
      simp at hnone
    | true =>
      rw [if_pos rfl] at hnone ⊢
      rcases List.mem_cons.mp hd with rfl | hmem
      · have hd0 : fs1.hasDir d = true := by
          have htg := ihtgt rfl (by
            intro hcon
            rw [List.reverse_eq_nil_iff] at hcon
            exact hdne hcon)
          rw [List.reverse_reverse] at htg
          exact htg
        obtain ⟨g1, g2⟩ := mkdirs_mono ds fs1 d hd0
        refine ⟨g1, fun hf => ?_⟩
        rw [g2]
        exact ihnew d hf hd0
      · obtain ⟨g1, g2⟩ := ih fs1 hcl hnone d hmem hdne
        refine ⟨g1, fun hf => ?_⟩
        rcases hfs1 : fs1.hasDir d with _ | _
        · exact g2 hfs1
        · have hmode := ihnew d hf hfs1
          obtain ⟨-, m2⟩ := mkdirs_mono ds fs1 d hfs1
          rw [m2, hmode]

/-- Structural characterization of any successful `NewTemporary`. -/
theorem newTemporary_ok_struct (sys sys1 : Sys) (dir : FsPath) (u : Bool) (t : Temporary)
    (h : NewTemporary sys dir u = (sys1, .ok t)) :
    sys1.fs = (mkdirs sys.fs [dir ++ ["src"], dir ++ ["pkg"], dir ++ ["bin"]]).1 ∧
    (mkdirs sys.fs [dir ++ ["src"], dir ++ ["pkg"], dir ++ ["bin"]]).2 = none ∧
    t.Path = dir ∧ t.update = u ∧ t.deleteDir = false := by
  rcases hm : mkdirs sys.fs [dir ++ ["src"], dir ++ ["pkg"], dir ++ ["bin"]] with ⟨fs1, od⟩
  cases od with
  | some d => simp [NewTemporary, hm] at h
  | none =>
    cases u with
    | false =>
      simp [NewTemporary, hm] at h
      obtain ⟨h1, h2⟩ := h
      subst h2
      simp [← h1]
    | true =>
      by_cases henv : sys.envGOPATH = sys.buildDefaultGOPATH
      · simp [NewTemporary, hm, henv] at h
        obtain ⟨h1, h2⟩ := h
        subst h2
        simp [← h1]
      · simp [NewTemporary, hm, henv] at h

/-- On any failing `NewTemporary`, neither `GOPATH` representation was
touched. -/
theorem newTemporary_err (sys sys1 : Sys) (dir : FsPath) (u : Bool) (e : GoError)
    (h : NewTemporary sys dir u = (sys1, .error e)) :
    sys1.buildDefaultGOPATH = sys.buildDefaultGOPATH ∧
    sys1.envGOPATH = sys.envGOPATH := by
  rcases hm : mkdirs sys.fs [dir ++ ["src"], dir ++ ["pkg"], dir ++ ["bin"]] with ⟨fs1, od⟩
  cases od with
  | some d =>
    simp [NewTemporary, hm] at h
    obtain ⟨h1, -⟩ := h
    simp [← h1]
  | none =>
    cases u with
    | false => simp [NewTemporary, hm] at h
    | true =>
      by_cases henv : sys.envGOPATH = sys.buildDefaultGOPATH
      · simp [NewTemporary, hm, henv] at h
      · simp [NewTemporary, hm, henv] at h
        obtain ⟨h1, -⟩ := h
        simp [← h1]

/-- **C6, counterexample.** The claim asserts that after a successful
create the three subdirectories have mode `0o700` for every input,
pre-existing or not; but `MkdirAll` does not re-mode a pre-existing
directory, so a `["d", "src"]` that already exists with mode `0o755`
keeps it. -/
theorem c6_counterexample :
    (NewTemporary sysPre ["d"] false).2 =
      .ok { Path := ["d"], Orig := "", Pkg := ["d", "pkg"], Src := ["d", "src"],
            Bin := ["d", "bin"], update := false, deleteDir := false } ∧
    (NewTemporary sysPre ["d"] false).1.fs.dirMode? ["d", "src"] = some 0o755 ∧
    (NewTemporary sysPre ["d"] false).1.fs.dirMode? ["d", "src"] ≠ some 0o700 := by
  decide

/-- **C6, amended.** On a prefix-closed filesystem: a successful create
leaves `dir/src`, `dir/pkg`, `dir/bin` existing on disk, and each of the
three that did not already exist as a directory was created with
owner-only mode `0o700` (a pre-existing one keeps its prior mode); if
creating any of the three fails, create returns a
`DirectoryCreationFailed`-class error naming the path attempted. -/
theorem c6_create_layout (sys : Sys) (dir : FsPath) (u : Bool)
    (hpc : sys.fs.prefixClosed = true) :
    (∀ sys1 t, NewTemporary sys dir u = (sys1, .ok t) →
      (sys1.fs.hasDir (dir ++ ["src"]) = true ∧
       sys1.fs.hasDir (dir ++ ["pkg"]) = true ∧
       sys1.fs.hasDir (dir ++ ["bin"]) = true) ∧
      (∀ d, (d = dir ++ ["src"] ∨ d = dir ++ ["pkg"] ∨ d = dir ++ ["bin"]) →
        sys.fs.hasDir d = false → sys1.fs.dirMode? d = some 0o700)) ∧
    (∀ d, (mkdirs sys.fs [dir ++ ["src"], dir ++ ["pkg"], dir ++ ["bin"]]).2 = some d →
      (NewTemporary sys dir u).2 = .error (.dirCreationFailed d) ∧
      (d = dir ++ ["src"] ∨ d = dir ++ ["pkg"] ∨ d = dir ++ ["bin"])) := by
  constructor
  · intro sys1 t h
    obtain ⟨hfs, hnone, -, -, -⟩ := newTemporary_ok_struct sys sys1 dir u t h
    have hens := mkdirs_ensures [dir ++ ["src"], dir ++ ["pkg"], dir ++ ["bin"]]
      sys.fs hpc hnone
    constructor
    · refine ⟨?_, ?_, ?_⟩ <;>
        (rw [hfs]; exact (hens _ (by simp) (by simp)).1)
    · intro d hd hfalse
      rw [hfs]
      have hmem : d ∈ [dir ++ ["src"], dir ++ ["pkg"], dir ++ ["bin"]] := by
        rcases hd with rfl | rfl | rfl <;> simp
      have hdne : d ≠ [] := by
        rcases hd with rfl | rfl | rfl <;> simp
      exact (hens d hmem hdne).2 hfalse
  · intro d hsome
    rcases hm : mkdirs sys.fs [dir ++ ["src"], dir ++ ["pkg"], dir ++ ["bin"]] with ⟨fs1, od⟩
    rw [hm] at hsome
    simp only at hsome
    subst hsome
    refine ⟨?_, ?_⟩
    · simp [NewTemporary, hm]
    · have := mkdirs_some_mem [dir ++ ["src"], dir ++ ["pkg"], dir ++ ["bin"]] sys.fs d
      rw [hm] at this
      simpa using this rfl

/-- Witness for C6 (amended): a fresh create produces the three
directories, the newly created `src` has mode `0o700`, and a blocked
`["d", "pkg"]` yields the directory-creation error naming it. -/
theorem c6_witness :
    (NewTemporary sysG ["d"] false).1.fs.hasDir ["d", "src"] = true ∧
    (NewTemporary sysG ["d"] false).1.fs.dirMode? ["d", "src"] = some 0o700 ∧
    (NewTemporary sysBadPkg ["d"] true).2 = .error (.dirCreationFailed ["d", "pkg"]) := by
  have hA := (c6_create_layout sysG ["d"] false (by decide)).1
    (NewTemporary sysG ["d"] false).1
    { Path := ["d"], Orig := "", Pkg := ["d", "pkg"], Src := ["d", "src"],
      Bin := ["d", "bin"], update := false, deleteDir := false } (by decide)
  have hB := (c6_create_layout sysBadPkg ["d"] true (by decide)).2
    ["d", "pkg"] (by decide)
  exact ⟨hA.1.1, hA.2 ["d", "src"] (Or.inl rfl) (by decide), hB.1⟩

/-- `RemoveAll p` leaves nothing (directory or file) at or below `p`. -/
theorem removeAll_kills (fs : FS) (p q : FsPath) (h : p.isPrefixOf q = true) :
    (fs.removeAll p).hasDir q = false ∧ (fs.removeAll p).hasFile q = false := by
  constructor
  · rw [FS.hasDir, List.any_eq_false]
    intro d hd
    simp only [FS.removeAll, List.mem_filter] at hd
    obtain ⟨-, hd2⟩ := hd
    intro hbe
    rw [beq_iff_eq] at hbe
    rw [hbe, h] at hd2
    simp at hd2
  · rw [FS.hasFile, List.any_eq_false]
    intro d hd
    simp only [FS.removeAll, List.mem_filter] at hd
    obtain ⟨-, hd2⟩ := hd
    intro hbe
    rw [beq_iff_eq] at hbe
    rw [hbe, h] at hd2
    simp at hd2

/-- **C9.** `Reset` removes the workspace tree exactly when the
delete-on-reset flag is set: with the flag `false` (the default after
`NewTemporary`) the filesystem is untouched, with it `true` everything at
or below the root is removed, and `KeepTempDir keep` stores `!keep`. -/
theorem c9_delete_on_reset (t : Temporary) (sys : Sys) (keep : Bool) :
    (t.KeepTempDir keep).deleteDir = !keep ∧
    (t.deleteDir = false → (t.Reset sys).fs = sys.fs) ∧
    (t.deleteDir = true → ∀ p : FsPath, t.Path.isPrefixOf p = true →
      (t.Reset sys).fs.hasDir p = false ∧ (t.Reset sys).fs.hasFile p = false) ∧
    (∀ dir u sys1 t1, NewTemporary sys dir u = (sys1, Except.ok t1) →
      t1.deleteDir = false) := by
  obtain ⟨tP, tO, tPkg, tSrc, tBin, tu, td⟩ := t
  refine ⟨rfl, ?_, ?_,
    fun dir u sys1 t1 h => (newTemporary_ok_struct sys sys1 dir u t1 h).2.2.2.2⟩
  · intro hdel
    replace hdel : td = false := hdel
    subst hdel
    cases tu <;> rfl
  · intro hdel p hp
    replace hdel : td = true := hdel
    subst hdel
    cases tu with
    | false => exact removeAll_kills sys.fs tP p hp
    | true => exact removeAll_kills sys.fs tP p hp

/-- Witness for C9: the negated flag, an intact tree under `deleteDir =
false`, and full removal under `deleteDir = true`. -/
theorem c9_witness :
    (tK.KeepTempDir false).deleteDir = true ∧
    (tK.Reset sysPre).fs = sysPre.fs ∧
    (tD.Reset sysPre).fs.hasDir ["d", "src"] = false ∧
    (tD.Reset sysPre).fs.hasFile ["d", "src"] = false := by
  have h1 := c9_delete_on_reset tK sysPre false
  have h2 := c9_delete_on_reset tD sysPre false
  have h3 := h2.2.2.1 rfl ["d", "src"] (by decide)
  exact ⟨h1.1, h1.2.1 rfl, h3.1, h3.2⟩

/-- `Copy` on a singleton list is exactly the body of its loop. -/
theorem copy_singleton (t : Temporary) (fs : FS) (f : SourceFile) :
    t.Copy fs [f] = t.step fs f := by
  rcases hr : t.step fs f with ⟨fs1, r2⟩
  rw [Temporary.Copy, hr]
  cases r2 with
  | error e => rfl
  | ok u =>
    cases u
    rw [Temporary.Copy]

/-- Unfolding of `Copy` on a nonempty list. -/
theorem copy_cons (t : Temporary) (fs : FS) (f : SourceFile) (l : List SourceFile) :
    t.Copy fs (f :: l) =
      match (t.step fs f).2 with
      | .error e => ((t.step fs f).1, .error e)
      | .ok _ => t.Copy (t.step fs f).1 l := by
  rw [Temporary.Copy]

/-- **C10.** `Copy` dispatches on each entry solely by whether its literal
content is present: with content the entry is written via `WriteFile` and
its source path is ignored, without content a copy from the source path is
always attempted, so an entry with neither content nor source path yields
a source-open error on the empty path rather than a silent no-op. -/
theorem c10_dispatch (t : Temporary) (fs : FS) (f : SourceFile) (c : List Nat) :
    (f.Content = some c → t.Copy fs [f] = t.WriteFile fs f.Dest c) ∧
    (f.Content = none → t.Copy fs [f] = t.CopyFile fs f.Dest f.Src) ∧
    (f.Content = none → f.Src = [] →
      t.Copy fs [f] = (fs, .error (.sourceOpenFailed []))) := by
  refine ⟨fun hc => ?_, fun hc => ?_, fun hc hs => ?_⟩
  · rw [copy_singleton]
    simp [Temporary.step, hc]
  · rw [copy_singleton]
    simp [Temporary.step, hc]
  · rw [copy_singleton]
    simp [Temporary.step, hc, hs, Temporary.CopyFile, FS.openRead?]

/-- Witness for C10: a literal entry ignores its (set) source path; an
entirely empty entry fails with a source-open error on the empty path. -/
theorem c10_witness :
    Temporary.Copy tW FS.empty [{ Src := ["s"], Dest := ["dst"], Content := some [7, 8] }] =
      Temporary.WriteFile tW FS.empty ["dst"] [7, 8] ∧
    Temporary.Copy tW FS.empty [{ Src := [], Dest := ["dst"], Content := none }] =
      (FS.empty, .error (.sourceOpenFailed [])) := by
  exact ⟨(c10_dispatch tW FS.empty _ [7, 8]).1 rfl,
    (c10_dispatch tW FS.empty { Src := [], Dest := ["dst"], Content := none } [7, 8]).2.2 rfl rfl⟩

/-- `readFile?` unfolded. -/
theorem readFile?_def (fs : FS) (p : FsPath) :
    fs.readFile? p = (fs.files.find? (fun f => f.1 == p)).map (fun f => f.2.2) := rfl

/-- A path with no file reads as `none`. -/
theorem readFile?_eq_none (fs : FS) (p : FsPath) (h : fs.hasFile p = false) :
    fs.readFile? p = none := by
  rw [readFile?_def]
  have hfind : fs.files.find? (fun f => f.1 == p) = none := by
    rw [List.find?_eq_none]
    intro x hx
    rw [FS.hasFile, List.any_eq_false] at h
    exact h x hx
  rw [hfind]
  rfl

/-- Reading back the path just written returns the written content. -/
theorem setFile_read (fs : FS) (p : FsPath) (content : List Nat) :
    (fs.setFile p content).readFile? p = some content := by
  have key : ∀ (m : Nat) (rest : List (FsPath × Nat × List Nat)),
      (((p, m, content) :: rest).find? (fun f => f.1 == p)).map
        (fun f => f.2.2) = some content := by
    intro m rest
    have hfind : List.find? (fun f => f.1 == p) ((p, m, content) :: rest)
        = some (p, m, content) := List.find?_cons_of_pos _ (by simp)
    rw [hfind]
    rfl
  rcases hfd : fs.files.find? (fun f => f.1 == p) with _ | f
  · have hset : fs.setFile p content = { fs with files := (p, 0o600, content) :: fs.files } := by
      unfold FS.setFile
      rw [hfd]
    rw [hset, readFile?_def]
    exact key 0o600 fs.files
  · have hset : fs.setFile p content = { fs with files := (p, f.2.1, content) :: fs.files } := by
      unfold FS.setFile
      rw [hfd]
    rw [hset, readFile?_def]
    exact key f.2.1 fs.files

/-- `setFile` touches only the file table. -/
theorem setFile_dirs (fs : FS) (p : FsPath) (content : List Nat) :
    (fs.setFile p content).dirs = fs.dirs := by
  unfold FS.setFile
  rcases hfd : fs.files.find? (fun f => f.1 == p) with _ | f <;> rw [hfd]

/-- Success characterization of `WriteFile`: the containing directory was
ensured, the destination was openable, and the final state writes the new
bytes over the prefix of the old content. -/
theorem writeFile_ok (t : Temporary) (fs fs1 : FS) (file : FsPath) (contents : List Nat)
    (h : t.WriteFile fs file contents = (fs1, .ok ())) :
    ∃ fsm, fs.mkdirAll (t.Src ++ file).dropLast 0o700 = (fsm, true) ∧
      fsm.hasDir (t.Src ++ file) = false ∧
      fsm.unwritable.contains (t.Src ++ file) = false ∧
      fs1 = fsm.setFile (t.Src ++ file)
        (contents ++ (((fsm.readFile? (t.Src ++ file)).getD []).drop contents.length)) := by
  rcases hm : fs.mkdirAll ((t.Src ++ file).dropLast) 0o700 with ⟨fsm, ok⟩
  cases ok with
  | false => simp [Temporary.WriteFile, hm] at h
  | true =>
    by_cases hdd : fsm.hasDir (t.Src ++ file) = true
    · simp [Temporary.WriteFile, hm, hdd] at h
    · by_cases huw : (t.Src ++ file) ∈ fsm.unwritable
      · simp [Temporary.WriteFile, hm, hdd, huw] at h
      · refine ⟨fsm, rfl, by simpa using hdd, by simpa using huw, ?_⟩
        simp [Temporary.WriteFile, hm, hdd, huw] at h
        exact h.symm

/-- **C8.** `WriteFile` does not truncate a pre-existing destination: the
resulting content is the new bytes followed by whatever of the old content
lies beyond their length. -/
theorem c8_no_truncate (t : Temporary) (fs fs1 : FS) (file : FsPath)
    (contents old : List Nat)
    (hold : fs.readFile? (t.Src ++ file) = some old)
    (h : t.WriteFile fs file contents = (fs1, .ok ())) :
    fs1.readFile? (t.Src ++ file) = some (contents ++ old.drop contents.length) := by
  obtain ⟨fsm, hm, -, -, hset⟩ := writeFile_ok t fs fs1 file contents h
  rw [mkdirAll_def] at hm
  have hframe : fsm.files = fs.files := by
    have hfr := (mkdirAllRev_props (t.Src ++ file).dropLast.reverse fs 0o700).1
    rw [hm] at hfr
    exact hfr
  have hreads : fsm.readFile? (t.Src ++ file) = some old := by
    rw [readFile?_def, hframe, ← readFile?_def]
    exact hold
  rw [hreads] at hset
  rw [hset]
  exact setFile_read fsm (t.Src ++ file) _

/-- Witness for C8: writing two bytes over a five-byte file leaves the old
tail `[9, 10, 11]` in place. -/
theorem c8_witness :
    (Temporary.WriteFile tW fs8 ["f"] [1, 2]).1.readFile? ["w", "src", "f"]
      = some [1, 2, 9, 10, 11] := by
  have h := c8_no_truncate tW fs8 (Temporary.WriteFile tW fs8 ["f"] [1, 2]).1 ["f"]
    [1, 2] [7, 8, 9, 10, 11] (by decide) (by decide)
  exact h

/-- **C7.** A successful `WriteFile` on a (prefix-closed) filesystem
resolves the relative path against the source root, leaves every nonempty
prefix of the containing directory existing — those that were missing
created with owner-only mode `0o700` — and, when the destination file did
not previously exist, leaves it containing exactly the given bytes. -/
theorem c7_writeFile_layout (t : Temporary) (fs fs1 : FS) (file : FsPath)
    (contents : List Nat)
    (hpc : fs.prefixClosed = true)
    (h : t.WriteFile fs file contents = (fs1, .ok ())) :
    (∀ q : FsPath, q ≠ [] → q.isPrefixOf ((t.Src ++ file).dropLast) = true →
      fs1.hasDir q = true ∧ (fs.hasDir q = false → fs1.dirMode? q = some 0o700)) ∧
    (fs.hasFile (t.Src ++ file) = false →
      fs1.readFile? (t.Src ++ file) = some contents) := by
  obtain ⟨fsm, hm, -, -, hset⟩ := writeFile_ok t fs fs1 file contents h
  rw [mkdirAll_def] at hm
  have hframe : fsm.files = fs.files := by
    have hfr := (mkdirAllRev_props (t.Src ++ file).dropLast.reverse fs 0o700).1
    rw [hm] at hfr
    exact hfr
  constructor
  · intro q hqne hqpre
    obtain ⟨hens, -⟩ :=
      mkdirAllRev_closed_props (t.Src ++ file).dropLast.reverse fs 0o700 hpc
    obtain ⟨-, -, -, -, -, ihnew, -⟩ :=
      mkdirAllRev_props (t.Src ++ file).dropLast.reverse fs 0o700
    rw [hm] at hens ihnew
    have hq : fsm.hasDir q = true := by
      have := hens rfl q hqne (by rwa [List.reverse_reverse])
      exact this
    have hdirs : fs1.dirs = fsm.dirs := by
      rw [hset]
      exact setFile_dirs fsm _ _
    constructor
    · rw [FS.hasDir, hdirs, ← FS.hasDir]
      exact hq
    · intro hmiss
      rw [FS.dirMode?, hdirs, ← FS.dirMode?]
      exact ihnew q hmiss hq
  · intro hnofile
    have hnofm : fsm.hasFile (t.Src ++ file) = false := by
      rw [FS.hasFile, hframe, ← FS.hasFile]
      exact hnofile
    have hrn : fsm.readFile? (t.Src ++ file) = none := readFile?_eq_none fsm _ hnofm
    rw [hrn] at hset
    simp only [Option.getD_none, List.drop_nil, List.append_nil] at hset
    rw [hset]
    exact setFile_read fsm (t.Src ++ file) contents

/-- Witness for C7: `WriteFile(["a", "b", "c.txt"], "hello" )` from an
empty filesystem creates `w/src/a` and `w/src/a/b` with mode `0o700` and a
file containing exactly the bytes of `"hello"`. -/
theorem c7_witness :
    (Temporary.WriteFile tW FS.empty ["a", "b", "c.txt"]
        [104, 101, 108, 108, 111]).1.hasDir ["w", "src", "a"] = true ∧
    (Temporary.WriteFile tW FS.empty ["a", "b", "c.txt"]
        [104, 101, 108, 108, 111]).1.dirMode? ["w", "src", "a"] = some 0o700 ∧
    (Temporary.WriteFile tW FS.empty ["a", "b", "c.txt"]
        [104, 101, 108, 108, 111]).1.hasDir ["w", "src", "a", "b"] = true ∧
    (Temporary.WriteFile tW FS.empty ["a", "b", "c.txt"]
        [104, 101, 108, 108, 111]).1.dirMode? ["w", "src", "a", "b"] = some 0o700 ∧
    (Temporary.WriteFile tW FS.empty ["a", "b", "c.txt"]
        [104, 101, 108, 108, 111]).1.readFile? ["w", "src", "a", "b", "c.txt"]
      = some [104, 101, 108, 108, 111] := by
  have h := c7_writeFile_layout tW FS.empty
    (Temporary.WriteFile tW FS.empty ["a", "b", "c.txt"] [104, 101, 108, 108, 111]).1
    ["a", "b", "c.txt"] [104, 101, 108, 108, 111] (by decide) (by decide)
  have ha := h.1 ["w", "src", "a"] (by decide) (by decide)
  have hb := h.1 ["w", "src", "a", "b"] (by decide) (by decide)
  exact ⟨ha.1, ha.2 (by decide), hb.1, hb.2 (by decide), h.2 (by decide)⟩

/-- **C5.** `Copy` processes entries in order and stops at the first entry
that fails, returning that entry's error: with `i` the number of entries
processed successfully, `i` is a valid index, the prefix of length `i`
succeeds (its writes kept, no rollback), the loop body on entry `i` from
the post-prefix state produces exactly the returned state and error, and
running only the first `i + 1` entries gives the same result (no later
entry is attempted). -/
theorem c5_copy_failfast (t : Temporary) (fs fs1 : FS) (files : List SourceFile)
    (e : GoError) (h : t.Copy fs files = (fs1, .error e)) :
    t.copyFailIdx fs files < files.length ∧
    (t.Copy fs (files.take (t.copyFailIdx fs files))).2 = .ok () ∧
    t.step (t.Copy fs (files.take (t.copyFailIdx fs files))).1
      (files.getD (t.copyFailIdx fs files) { Src := [], Dest := [], Content := none })
      = (fs1, .error e) ∧
    t.Copy fs (files.take (t.copyFailIdx fs files + 1)) = (fs1, .error e) := by
  induction files generalizing fs with
  | nil => simp [Temporary.Copy] at h
  | cons f rest ih =>
    rcases hs : t.step fs f with ⟨fs2, r2⟩
    cases r2 with
    | error e0 =>
      rw [copy_cons, hs] at h
      simp only [Prod.mk.injEq, Except.error.injEq] at h
      obtain ⟨hfs, he⟩ := h
      have hidx : t.copyFailIdx fs (f :: rest) = 0 := by
        rw [Temporary.copyFailIdx, hs]
      rw [hidx]
      refine ⟨by simp, ?_, ?_, ?_⟩
      · rw [List.take_zero, Temporary.Copy]
      · rw [List.take_zero, Temporary.Copy]
        simp only [List.getD_cons_zero]
        rw [hs, hfs, he]
      · rw [List.take_succ_cons, List.take_zero, copy_singleton, hs, hfs, he]
    | ok u =>
      cases u
      rw [copy_cons, hs] at h
      obtain ⟨ih1, ih2, ih3, ih4⟩ := ih fs2 h
      have hidx : t.copyFailIdx fs (f :: rest) = t.copyFailIdx fs2 rest + 1 := by
        rw [Temporary.copyFailIdx, hs]
      rw [hidx]
      have hcpre : ∀ l : List SourceFile, t.Copy fs (f :: l) = t.Copy fs2 l := by
        intro l
        rw [copy_cons, hs]
      refine ⟨by simp only [List.length_cons]; omega, ?_, ?_, ?_⟩
      · rw [List.take_succ_cons, hcpre]
        exact ih2
      · rw [List.take_succ_cons, hcpre]
        simp only [List.getD_cons_succ]
        exact ih3
      · rw [List.take_succ_cons, hcpre]
        exact ih4

/-- Witness for C5: three entries with the second failing (nonexistent
source).  The failing index is 1, the first entry's file is on disk in the
final state, the third entry's is not, and the error references the second
entry's path. -/
theorem c5_witness :
    Temporary.copyFailIdx tW FS.empty filesW = 1 ∧
    (Temporary.Copy tW FS.empty filesW).2 = .error (.sourceOpenFailed ["nosuch"]) ∧
    (Temporary.Copy tW FS.empty (filesW.take 1)).2 = .ok () ∧
    (Temporary.Copy tW FS.empty (filesW.take 2)).2 = .error (.sourceOpenFailed ["nosuch"]) ∧
    (Temporary.Copy tW FS.empty filesW).1.hasFile ["w", "src", "f1"] = true ∧
    (Temporary.Copy tW FS.empty filesW).1.hasFile ["w", "src", "f3"] = false := by
  have h := c5_copy_failfast tW FS.empty (Temporary.Copy tW FS.empty filesW).1 filesW
    (.sourceOpenFailed ["nosuch"]) (by decide)
  rw [show Temporary.copyFailIdx tW FS.empty filesW = 1 from by decide] at h
  refine ⟨by decide, by decide, h.2.1, ?_, by decide, by decide⟩
  rw [h.2.2.2]

/-- **C4.** Whenever `NewTemporaryWithFiles` fails after the temporary
directory has been allocated — during workspace construction or during
file ingestion — nothing remains on disk at or below the allocated
directory, and both `GOPATH` representations equal their pre-call
values. -/
theorem c4_no_leak (sys sys1 : Sys) (dir : FsPath) (files : List SourceFile)
    (e : GoError) (h : NewTemporaryWithFiles sys dir files = (sys1, .error e)) :
    (∀ p : FsPath, dir.isPrefixOf p = true →
      sys1.fs.hasDir p = false ∧ sys1.fs.hasFile p = false) ∧
    sys1.buildDefaultGOPATH = sys.buildDefaultGOPATH ∧
    sys1.envGOPATH = sys.envGOPATH := by
  rcases hN : NewTemporary
      { sys with fs := { sys.fs with dirs := (dir, 0o700) :: sys.fs.dirs } } dir true
    with ⟨sysA, res⟩
  cases res with
  | error e0 =>
    rw [NewTemporaryWithFiles, hN] at h
    simp only [Prod.mk.injEq, Except.error.injEq] at h
    obtain ⟨h1, -⟩ := h
    obtain ⟨hb, he⟩ := newTemporary_err _ sysA dir true e0 hN
    subst h1
    exact ⟨fun p hp => removeAll_kills sysA.fs dir p hp, hb, he⟩
  | ok t0 =>
    rw [NewTemporaryWithFiles, hN] at h
    dsimp only at h
    obtain ⟨henv, ht0, -, -⟩ := newTemporary_ok_true _ sysA dir t0 hN
    rcases hC : Temporary.Copy { t0 with deleteDir := true } sysA.fs files
      with ⟨fsB, rc⟩
    rw [hC] at h
    cases rc with
    | ok u => simp at h
    | error e0 =>
      dsimp only at h
      simp only [Prod.mk.injEq, Except.error.injEq] at h
      obtain ⟨h1, -⟩ := h
      subst h1
      subst ht0
      refine ⟨fun p hp => removeAll_kills _ dir p hp, rfl, henv.symm⟩

/-- Witness for C4: ingestion of a single entry with a nonexistent source
fails; afterwards nothing exists under the allocated `["d"]` and both
`GOPATH` representations are back to `"g"`. -/
theorem c4_witness :
    (NewTemporaryWithFiles sysG ["d"] [fMiss]).1.fs.hasDir ["d"] = false ∧
    (NewTemporaryWithFiles sysG ["d"] [fMiss]).1.fs.hasDir ["d", "src"] = false ∧
    (NewTemporaryWithFiles sysG ["d"] [fMiss]).1.buildDefaultGOPATH = "g" ∧
    (NewTemporaryWithFiles sysG ["d"] [fMiss]).1.envGOPATH = "g" := by
  have h := c4_no_leak sysG (NewTemporaryWithFiles sysG ["d"] [fMiss]).1 ["d"] [fMiss]
    (.sourceOpenFailed ["nosuch"]) (by decide)
  exact ⟨(h.1 ["d"] (by decide)).1, (h.1 ["d", "src"] (by decide)).1, h.2.1, h.2.2⟩

end Fakegopath
